import Mathlib

/-!
Verification of the text-recovery core of the meeting-prep repository
(`meeting_prep/agents/meeting_prep/service.py`), shallowly embedded over
`List Char`.  The embedded functions are:

* `repairContactName`  — `_repair_contact_name_in_text`
* `classifyIndustry`   — the industry-inference block of
  `_get_relevant_solved_challenges`
* `processRows` / `filterCaseStudies` / `getRelevantSolvedChallenges`
  — the CSV-filtering block of `_get_relevant_solved_challenges`
* `locateContact` / `windowLines` / `reconstructProfileURL` /
  `extractLinkedin` — `_extract_linkedin_for_contact`

Python strings are modelled as `List Char`; Python regular expressions used
by the source (literal parts joined by `\s+`, and `first .{0,200}? last` with
IGNORECASE/DOTALL) are modelled by the deterministic matchers below, which
compute exactly the leftmost, non-overlapping matches that the Python engine
finds on those specific patterns.  Case-insensitive matching is modelled
with `Char.toLower` on both sides.

The string replacement argument of `re.subn` is processed by Python as an
escape template (CPython parses it eagerly whenever it contains a
backslash, even when there are no matches): known letter escapes such as
`\t` are converted to control characters, octal escapes are decoded, group
references are resolved (only group 0 exists for the patterns built here;
any other reference raises `re.error`), unknown ASCII-letter escapes and
malformed `\g<...>` raise, and a backslash before any other character is
kept verbatim.  `parseTemplate` below models this: `none` models a raised
exception, so `repairLE`/`repairContactNameE` return `none` exactly when
`_repair_contact_name_in_text` raises.
-/

namespace MeetingPrep

/-- The whitespace class of Python `str.split` / `\s` (ASCII part). -/
def pySpace (c : Char) : Bool :=
  c = ' ' || c = '\t' || c = '\n' || c = '\r' || c = '\x0b' || c = '\x0c'

/-- Python `str.lower`, modelled character-wise. -/
def lowerL (s : List Char) : List Char := s.map Char.toLower

/-- Python `needle in hay` substring test. -/
def isSubL (pat s : List Char) : Bool := decide (pat <:+: s)

/-- Accumulator-based worker for `pySplit`. -/
def pySplitAux : List Char → List Char → List (List Char)
  | [], acc => if acc = [] then [] else [acc.reverse]
  | c :: t, acc =>
    if pySpace c then
      if acc = [] then pySplitAux t [] else acc.reverse :: pySplitAux t []
    else pySplitAux t (c :: acc)

/-- Python `str.split()` with no separator: split on runs of whitespace,
discarding empty fields. -/
def pySplit (s : List Char) : List (List Char) := pySplitAux s []

/-- Case-insensitive literal match: removes `p` (compared via `Char.toLower`)
from the front of `s`, returning the rest, or `none` when `s` does not start
with `p` case-insensitively. -/
def dropCI : List Char → List Char → Option (List Char)
  | [], s => some s
  | _ :: _, [] => none
  | p :: ps, c :: cs => if p.toLower = c.toLower then dropCI ps cs else none

/-- Length and remainder of the maximal leading whitespace run. -/
def spanSpaces : List Char → Nat × List Char
  | [] => (0, [])
  | c :: t =>
    if pySpace c then
      let r := spanSpaces t
      (r.1 + 1, r.2)
    else (0, c :: t)

/-- Matcher for the tail of the pattern `part0 \s+ part1 \s+ ...`:
each remaining part must be preceded by at least one whitespace character
(the run is consumed maximally, which is what the Python engine does here
because no part contains whitespace).  Returns the matched length. -/
def matchTailParts : List (List Char) → List Char → Option Nat
  | [], _ => some 0
  | p :: ps, s =>
    let sp := spanSpaces s
    if sp.1 = 0 then none
    else
      match dropCI p sp.2 with
      | none => none
      | some s2 => (matchTailParts ps s2).map (fun n => sp.1 + p.length + n)

/-- Matcher (at the current position) for the Strategy-1 pattern
`re.escape(part0) + r"\s+" + ...` with IGNORECASE: returns the length of the
match starting here, if any. -/
def matchPartsAt (parts : List (List Char)) (s : List Char) : Option Nat :=
  match parts with
  | [] => none
  | p :: ps =>
    match dropCI p s with
    | none => none
    | some s1 => (matchTailParts ps s1).map (fun n => p.length + n)

/-- Minimal gap (lazy `.{0,fuel}?` with DOTALL) after which `pat` matches
case-insensitively, if any. -/
def findLastGap (pat : List Char) : Nat → List Char → Option Nat
  | fuel, s =>
    if (dropCI pat s).isSome then some 0
    else
      match fuel, s with
      | 0, _ => none
      | _ + 1, [] => none
      | f + 1, _ :: t => (findLastGap pat f t).map (· + 1)

/-- Matcher (at the current position) for the Strategy-2 proximity pattern
`re.escape(first) + r".{0,200}?" + re.escape(last)` with IGNORECASE|DOTALL:
first token here, then the lazily-shortest gap of at most 200 characters,
then the last token. -/
def matchProxAt (first last : List Char) (s : List Char) : Option Nat :=
  match dropCI first s with
  | none => none
  | some s1 => (findLastGap last 200 s1).map (fun g => first.length + g + last.length)

/-- Fuelled worker for `subnF`; the fuel starts at the length of the string,
which suffices because every step consumes at least one character. -/
def subnFuel (mt : List Char → Option Nat) (rf : List Char → List Char) :
    Nat → List Char → List Char × Nat
  | 0, s => (s, 0)
  | _ + 1, [] => ([], 0)
  | f + 1, c :: rest =>
    match mt (c :: rest) with
    | some n =>
      let pr := subnFuel mt rf f (rest.drop (n - 1))
      (rf ((c :: rest).take n) ++ pr.1, pr.2 + 1)
    | none =>
      let pr := subnFuel mt rf f rest
      (c :: pr.1, pr.2)

/-- Python `re.subn` for the deterministic matchers used by the source:
replaces every leftmost non-overlapping match (`mt` gives the match length at
a position, always at least 1 for the patterns used) by `rf` applied to the
matched span, and returns the new string with the replacement count. -/
def subnF (mt : List Char → Option Nat) (rf : List Char → List Char)
    (s : List Char) : List Char × Nat :=
  subnFuel mt rf s.length s

/-- Python `str.replace(pat, repl)` (exact, all non-overlapping occurrences);
`pat` is nonempty in every use. -/
def replaceStr (pat repl s : List Char) : List Char :=
  (subnF (fun t => if decide (pat <+: t) then some pat.length else none)
    (fun _ => repl) s).1

/-- The `<br>`/`<br/>` pre-processing step of `_repair_contact_name_in_text`. -/
def brClean (text : List Char) : List Char :=
  replaceStr "<br/>".data " ".data (replaceStr "<br>".data " ".data text)

/-- One parsed item of a `re` replacement template: a literal character, or
a reference to a capture group (only group 0 — the whole match — can occur
for the zero-group patterns built by `_repair_contact_name_in_text`). -/
inductive TmplItem where
  | lit (c : Char)
  | grp (i : Nat)

/-- The letter escapes converted inside replacement templates
(`\a \b \f \n \r \t \v`). -/
def tmplEscMap (c : Char) : Option Char :=
  if c = 'a' then some '\x07'
  else if c = 'b' then some '\x08'
  else if c = 'f' then some '\x0c'
  else if c = 'n' then some '\n'
  else if c = 'r' then some '\r'
  else if c = 't' then some '\t'
  else if c = 'v' then some '\x0b'
  else none

/-- Octal digit test. -/
def isOctDigit (c : Char) : Bool := '0' ≤ c && c ≤ '7'

/-- Numeric value of a digit character. -/
def octVal (c : Char) : Nat := c.toNat - '0'.toNat

/-- ASCII letter test (Python rejects unknown escapes of ASCII letters). -/
def isAsciiLetter (c : Char) : Bool :=
  ('a' ≤ c && c ≤ 'z') || ('A' ≤ c && c ≤ 'Z')

/-- Fuelled worker for `parseTemplate` (the fuel starts above the template
length; every step consumes at least one character).  Implements CPython's
`parse_template` for `str` templates: `\g<number>` group references (a
non-numeric group name can never resolve here, as the patterns define no
named groups, so it raises), `\0` plus up to two octal digits as an octal
escape, `\1`-`\99` as group references except when three octal digits form
an in-range octal escape, the known letter escapes, `\\`, errors for other
ASCII-letter escapes and for a trailing backslash, and a kept-verbatim
backslash before any other character.  `none` models a raised exception. -/
def parseTemplateFuel (groups : Nat) : Nat → List Char → Option (List TmplItem)
  | 0, _ => none
  | _ + 1, [] => some []
  | f + 1, '\\' :: rest =>
    match rest with
    | [] => none
    | 'g' :: r2 =>
      match r2 with
      | '<' :: r3 =>
        match r3.dropWhile (· ≠ '>') with
        | [] => none
        | _ :: r5 =>
          let gname := r3.takeWhile (· ≠ '>')
          if gname = [] then none
          else if gname.all Char.isDigit then
            let k := gname.foldl (fun acc c => acc * 10 + octVal c) 0
            if groups < k then none
            else (parseTemplateFuel groups f r5).map (.grp k :: ·)
          else none
      | _ => none
    | c :: r2 =>
      if c = '0' then
        match r2 with
        | d1 :: d2 :: r3 =>
          if isOctDigit d1 && isOctDigit d2 then
            (parseTemplateFuel groups f r3).map
              (.lit (Char.ofNat (octVal d1 * 8 + octVal d2)) :: ·)
          else if isOctDigit d1 then
            (parseTemplateFuel groups f (d2 :: r3)).map
              (.lit (Char.ofNat (octVal d1)) :: ·)
          else
            (parseTemplateFuel groups f (d1 :: d2 :: r3)).map (.lit '\x00' :: ·)
        | [d1] =>
          if isOctDigit d1 then
            (parseTemplateFuel groups f []).map (.lit (Char.ofNat (octVal d1)) :: ·)
          else (parseTemplateFuel groups f [d1]).map (.lit '\x00' :: ·)
        | [] => (parseTemplateFuel groups f []).map (.lit '\x00' :: ·)
      else if c.isDigit then
        match r2 with
        | d2 :: r3 =>
          if d2.isDigit then
            match r3 with
            | d3 :: r4 =>
              if isOctDigit c && isOctDigit d2 && isOctDigit d3 then
                if 255 < octVal c * 64 + octVal d2 * 8 + octVal d3 then none
                else
                  (parseTemplateFuel groups f r4).map
                    (.lit (Char.ofNat (octVal c * 64 + octVal d2 * 8 + octVal d3)) :: ·)
              else if groups < octVal c * 10 + octVal d2 then none
              else
                (parseTemplateFuel groups f (d3 :: r4)).map
                  (.grp (octVal c * 10 + octVal d2) :: ·)
            | [] =>
              if groups < octVal c * 10 + octVal d2 then none
              else (parseTemplateFuel groups f []).map (.grp (octVal c * 10 + octVal d2) :: ·)
          else if groups < octVal c then none
          else (parseTemplateFuel groups f (d2 :: r3)).map (.grp (octVal c) :: ·)
        | [] =>
          if groups < octVal c then none
          else (parseTemplateFuel groups f []).map (.grp (octVal c) :: ·)
      else if c = '\\' then (parseTemplateFuel groups f r2).map (.lit '\\' :: ·)
      else if isAsciiLetter c then
        match tmplEscMap c with
        | some e => (parseTemplateFuel groups f r2).map (.lit e :: ·)
        | none => none
      else (parseTemplateFuel groups f r2).map (fun l => .lit '\\' :: .lit c :: l)
  | f + 1, c :: rest => (parseTemplateFuel groups f rest).map (.lit c :: ·)

/-- Parse a `re` replacement template against a pattern with `groups`
capture groups; `none` models the `re.error`/`IndexError` that CPython
raises while compiling the template (before any matching).  Group-zero
references written in non-canonical spellings that Python's `int()` accepts
(such as `\g<+0>`) are modelled as errors. -/
def parseTemplate (groups : Nat) (tmpl : List Char) : Option (List TmplItem) :=
  parseTemplateFuel groups (tmpl.length + 1) tmpl

/-- Render a parsed template at one match: group references insert the
matched span (only group 0 survives parsing for zero-group patterns). -/
def applyTemplate (items : List TmplItem) (matched : List Char) : List Char :=
  items.flatMap fun it =>
    match it with
    | .lit c => [c]
    | .grp _ => matched

/-- Python `re.subn` with a string replacement: used verbatim when it
contains no backslash; otherwise the template is compiled first (eagerly,
even when nothing matches) and rendered at each match.  `none` models the
exception raised by template compilation. -/
def subnTemplate (mt : List Char → Option Nat) (tmpl : List Char)
    (s : List Char) : Option (List Char × Nat) :=
  if '\\' ∈ tmpl then
    (parseTemplate 0 tmpl).map (fun items => subnF mt (applyTemplate items) s)
  else some (subnF mt (fun _ => tmpl) s)

/-- Strategies 1 and 2 of `_repair_contact_name_in_text`, applied to the
chosen working text `text1`: whitespace repair (replace every
`part0 \s+ ... \s+ partN` match by the template-processed name, service.py
line 56), and if that found nothing, proximity injection (a function
replacement, not a template: prepend the literal name and a space in front
of every `first .{0,200}? last` match).  `none` models the `re.error`
raised when the name is an invalid replacement template. -/
def repairCoreE (parts : List (List Char)) (name text1 : List Char) :
    Option (List Char) :=
  match subnTemplate (matchPartsAt parts) name text1 with
  | none => none
  | some r1 =>
    if 0 < r1.2 then some r1.1
    else
      some ((subnF (matchProxAt (parts.headD []) (parts.getLastD []))
        (fun m => name ++ ' ' :: m) text1).1)

/-- `_repair_contact_name_in_text` on `List Char`; `none` models a raised
exception (possible only in Strategy 1's template compilation). -/
def repairLE (text name : List Char) : Option (List Char) :=
  if text = [] ∨ name = [] then some text
  else if isSubL name text then some text
  else if (pySplit name).length < 2 then some text
  else if isSubL name (brClean text) then repairCoreE (pySplit name) name (brClean text)
  else repairCoreE (pySplit name) name text

/-- `_repair_contact_name_in_text` (service.py lines 26-78): `none` models
the `re.error` raised for names that are invalid replacement templates. -/
def repairContactNameE (text name : String) : Option String :=
  (repairLE text.data name.data).map (fun l => (⟨l⟩ : String))

/-- Total wrapper around `repairContactNameE`, for statements about inputs
on which `_repair_contact_name_in_text` returns normally; the `getD`
default is never relied upon (every theorem using this wrapper evaluates it
only where `repairLE` is `some`). -/
def repairContactName (text name : String) : String :=
  ⟨(repairLE text.data name.data).getD text.data⟩

/-- Python `str.strip()` (both ends, whitespace). -/
def pyStripL (s : List Char) : List Char :=
  ((s.dropWhile pySpace).reverse.dropWhile pySpace).reverse

/-- Python `str.strip()` on `String`. -/
def pyStrip (s : String) : String := ⟨pyStripL s.data⟩

/-- The fixed `industry_keywords` taxonomy of
`_get_relevant_solved_challenges` (service.py lines 90-98), in source order. -/
def industryKeywords : List (String × List String) :=
  [ ("Retail/eCommerce",
      ["retail", "ecommerce", "e-commerce", "shopping", "store", "merchandise",
       "consumer", "goods"]),
    ("Financial Services",
      ["bank", "finance", "financial", "fintech", "insurance", "investment",
       "payment", "wealth", "capital"]),
    ("Manufacturing/Logistics",
      ["manufacturing", "logistics", "supply chain", "shipping", "freight",
       "transport", "production", "industrial"]),
    ("Media/Streaming",
      ["media", "streaming", "entertainment", "broadcasting", "content",
       "video", "music", "gaming"]),
    ("Online Travel",
      ["travel", "booking", "flight", "hotel", "accommodation", "tourism",
       "vacation"]),
    ("SaaS/Technology",
      ["saas", "technology", "software", "cloud", "platform", "tech",
       "digital", "app"]),
    ("Startup",
      ["startup", "scaleup", "venture", "growth", "early stage"]) ]

/-- Fuelled worker for `countOcc` (Python `str.count`): counts leftmost
non-overlapping occurrences, skipping the length of the needle after each
match; the needle is nonempty in every use. -/
def countOccFuel (needle : List Char) : Nat → List Char → Nat
  | 0, _ => 0
  | _ + 1, [] => 0
  | f + 1, c :: rest =>
    if decide (needle <+: (c :: rest)) then
      countOccFuel needle f (rest.drop (needle.length - 1)) + 1
    else countOccFuel needle f rest

/-- Python `hay.count(needle)` for nonempty `needle`. -/
def countOcc (needle hay : List Char) : Nat := countOccFuel needle hay.length hay

/-- Total keyword-occurrence score of one industry in the (already
lowercased) research text; `scores[ind] += text_lower.count(keyword)`. -/
def keywordScore (tl : List Char) (kws : List String) : Nat :=
  (kws.map (fun k => countOcc k.data tl)).sum

/-- The industry/score table, in taxonomy order, for a research text. -/
def scoredIndustries (research : String) : List (String × Nat) :=
  let tl := lowerL research.data
  industryKeywords.map (fun p => (p.1, keywordScore tl p.2))

/-- Python `max(scores, key=scores.get)` over the insertion-ordered dict:
keeps the current best unless a later entry scores strictly higher, so the
first entry attaining the maximum wins. -/
def pickBest : (String × Nat) → List (String × Nat) → (String × Nat)
  | best, [] => best
  | best, p :: rest => pickBest (if best.2 < p.2 then p else best) rest

/-- Selection step on a scored table: Python
`best_industry = max(scores, key=scores.get)` followed by the zero-score
check of service.py lines 110-116. -/
def chooseBest : List (String × Nat) → Option String
  | [] => none
  | b :: rest =>
    let best := pickBest b rest
    if best.2 = 0 then none else some best.1

/-- The industry-inference block of `_get_relevant_solved_challenges`
(service.py lines 100-116): `none` models `target_industry = None`
("no match"). -/
def classifyIndustry (research : String) : Option String :=
  chooseBest (scoredIndustries research)

/-- One parsed case-study record.  Fields are `Option String`: `none` models
a key that is absent from (or unfilled in) the `csv.DictReader` row, so
`Option.getD` models Python `row.get(key, default)`. -/
structure CaseStudyRow where
  industry : Option String
  customer_info : Option String
  problem_overview : Option String
  challenge : Option String
  product : Option String
  capability : Option String
  solution : Option String
  reference : Option String
deriving DecidableEq

/-- The truncation marker appended when the 30-entry cap is reached. -/
def truncMarker : String := "... (List truncated for length)"

/-- The six output lines produced for one included row
(service.py lines 130-143). -/
def formatRow (r : CaseStudyRow) : List String :=
  ["### Case Study: " ++ r.customer_info.getD "N/A",
   "- **Industry**: " ++ pyStrip (r.industry.getD ""),
   "- **Challenge**: " ++ r.challenge.getD "N/A",
   "- **Solution (" ++ r.product.getD "N/A" ++ ")**: " ++ r.solution.getD "N/A",
   "- **Reference**: " ++ r.reference.getD "N/A",
   ""]

/-- Row-skip test: `if target_industry and row_industry != target_industry:
continue` (service.py line 127), where `row_industry` is the stripped
`industry` field. -/
def rowSkipped (target : Option String) (r : CaseStudyRow) : Bool :=
  match target with
  | some t => decide (pyStrip (r.industry.getD "") ≠ t)
  | none => false

/-- The row loop of `_get_relevant_solved_challenges` (service.py lines
123-148): `c` is the number of rows already formatted; after formatting a
row the count is incremented and, once it reaches 30, the truncation marker
is appended and the loop stops. -/
def processRows (target : Option String) : List CaseStudyRow → Nat → List String
  | [], _ => []
  | r :: rest, c =>
    if rowSkipped target r then processRows target rest c
    else
      formatRow r ++
        (if c + 1 ≥ 30 then [truncMarker] else processRows target rest (c + 1))

/-- The no-result notice of service.py lines 150-151. -/
def noticeFor (t : String) : String :=
  "No specific case studies found for inferred industry: " ++ t

/-- Row filtering plus the empty-result notice (service.py lines 123-151):
the spec's `filterCaseStudies(rows, label|none)`. -/
def filterCaseStudies (rows : List CaseStudyRow) (target : Option String) :
    List String :=
  let out := processRows target rows 0
  match target with
  | some t => if out = [] then [noticeFor t] else out
  | none => out

/-- Python `str.splitlines` for the line boundaries `\r\n`, `\n` and `\r`
(no trailing empty line for a trailing terminator). -/
def splitlinesAux : List Char → List Char → List (List Char)
  | [], acc => if acc = [] then [] else [acc.reverse]
  | '\r' :: '\n' :: t, acc => acc.reverse :: splitlinesAux t []
  | '\n' :: t, acc => acc.reverse :: splitlinesAux t []
  | '\r' :: t, acc => acc.reverse :: splitlinesAux t []
  | c :: t, acc => splitlinesAux t (c :: acc)

/-- Python `text.splitlines()`. -/
def splitlinesPy (s : List Char) : List (List Char) := splitlinesAux s []

/-- Splitter worker for the simple comma-separated model of a CSV line. -/
def splitCommaAux : List Char → List Char → List (List Char)
  | [], acc => [acc.reverse]
  | ',' :: t, acc => acc.reverse :: splitCommaAux t []
  | c :: t, acc => splitCommaAux t (c :: acc)

/-- Split a CSV line at commas (quoting-free model). -/
def splitComma (s : List Char) : List (List Char) := splitCommaAux s []

/-- Model of the external `csv.DictReader` collaborator for quoting-free
CSV text: the first line gives the header names, each later nonempty line
is one row, and a field is `none` when its column is missing from the header
or the row is too short (so `Option.getD` behaves like `dict.get`). -/
def parseCSVRows (csvText : String) : List CaseStudyRow :=
  match splitlinesPy csvText.data with
  | [] => []
  | header :: rest =>
    let hs := (splitComma header).map (fun l => (⟨l⟩ : String))
    (rest.filter (· ≠ [])).map (fun line =>
      let fs := (splitComma line).map (fun l => (⟨l⟩ : String))
      let get := fun (n : String) => (hs.findIdx? (· = n)).bind (fun i => fs[i]?)
      { industry := get "industry", customer_info := get "customer_info",
        problem_overview := get "problem_overview", challenge := get "challenge",
        product := get "product", capability := get "capability",
        solution := get "solution", reference := get "reference" })

/-- The header line of the report (service.py line 160). -/
def headerLine (target : Option String) : String :=
  "Relevant Solved Challenges (Inferred Industry: " ++ target.getD "All" ++ ")\n"

/-- `_get_relevant_solved_challenges` (service.py lines 81-161). -/
def getRelevantSolvedChallenges (csvText research : String) : String :=
  if csvText = "" ∨ pyStrip csvText = "" then ""
  else
    let target := classifyIndustry research
    let rows := parseCSVRows csvText
    let out := filterCaseStudies rows target
    if out = [] then "No solved challenges data found."
    else headerLine target ++ "\n" ++ String.intercalate "\n" out

/-- Number of name tokens (with multiplicity in the token list) occurring as
substrings of a line: `sum(1 for part in contact_parts if part in lower_line)`. -/
def countParts (parts : List (List Char)) (line : List Char) : Nat :=
  (parts.filter (fun p => isSubL p line)).length

/-- The single-line anchor pass of `_extract_linkedin_for_contact`
(service.py lines 178-194): `a` is the current anchor (`none` models `-1`),
`b` the current best match count, `i` the index of the next line. -/
def singlePassAux (parts : List (List Char)) :
    List (List Char) → Nat → Option Nat → Nat → Option Nat × Nat
  | [], _, a, b => (a, b)
  | l :: rest, i, a, b =>
    let mc := countParts parts (lowerL l)
    if 0 < mc ∧ b < mc then singlePassAux parts rest (i + 1) (some i) mc
    else singlePassAux parts rest (i + 1) a b

/-- Full-coverage test for an adjacent line pair: every name token occurs in
`lines[i] + " " + lines[i+1]` lowercased (service.py lines 201-203). -/
def coverPair (parts : List (List Char)) (l1 l2 : List Char) : Bool :=
  decide (parts.length ≤ countParts parts (lowerL (l1 ++ ' ' :: l2)))

/-- The sliding 2-line-window pass (service.py lines 199-205): index of the
first adjacent pair achieving full token coverage. -/
def windowPass (parts : List (List Char)) : List (List Char) → Option Nat
  | [] => none
  | [_] => none
  | l1 :: l2 :: rest =>
    if coverPair parts l1 l2 then some 0
    else (windowPass parts (l2 :: rest)).map (· + 1)

/-- The anchor-finding part of `_extract_linkedin_for_contact`
(service.py lines 173-209): the spec's `locateContact(text, name)`. -/
def locateContactL (text name : List Char) : Option Nat :=
  if (singlePassAux (pySplit (lowerL name)) (splitlinesPy text) 0 none 0).1 = none ∨
      (singlePassAux (pySplit (lowerL name)) (splitlinesPy text) 0 none 0).2 <
        (pySplit (lowerL name)).length then
    match windowPass (pySplit (lowerL name)) (splitlinesPy text) with
    | some i => some i
    | none => (singlePassAux (pySplit (lowerL name)) (splitlinesPy text) 0 none 0).1
  else (singlePassAux (pySplit (lowerL name)) (splitlinesPy text) 0 none 0).1

/-- `locateContact` on `String`s. -/
def locateContact (text name : String) : Option Nat :=
  locateContactL text.data name.data

/-- The scan window around the anchor (service.py lines 213-216):
`lines[max(0, anchor-2) : min(len(lines), anchor+8)]`. -/
def windowLines (lines : List (List Char)) (anchor : Nat) : List (List Char) :=
  (lines.drop (anchor - 2)).take (min lines.length (anchor + 8) - (anchor - 2))

/-- Start-of-wrapped-URL token test (service.py line 232): ends with `lin` or
`linkedin`, and contains `http` or `www`. -/
def urlStartTok (t : List Char) : Bool :=
  (decide ("lin".data <:+ t) || decide ("linkedin".data <:+ t)) &&
    (decide ("http".data <:+: t) || decide ("www".data <:+: t))

/-- Continuation token test on the next line (service.py line 242): starts
with `kedin` or `.com`. -/
def urlContTok (t : List Char) : Bool :=
  decide ("kedin".data <+: t) || decide (".com".data <+: t)

/-- Python `t.rstrip(',.;!:')`. -/
def rstripPunct (t : List Char) : List Char :=
  (t.reverse.dropWhile (fun c => c ∈ [',', '.', ';', '!', ':'])).reverse

/-- Character class of the slug regular expression `^[a-z0-9\-]+$`. -/
def slugChar (c : Char) : Bool :=
  ('a' ≤ c && c ≤ 'z') || ('0' ≤ c && c ≤ '9') || c = '-'

/-- The stop-word list of service.py line 274. -/
def stopwords : List (List Char) :=
  (["and", "the", "of", "in", "for", "with", "a", "an", "at", "as", "to"].map
    String.data)

/-- Does the cleaned token contain a name fragment of length above 2
(service.py line 282)? -/
def isNameSlug (parts : List (List Char)) (ct : List Char) : Bool :=
  parts.any (fun p => decide (2 < p.length) && decide (p <:+: lowerL ct))

/-- First qualifying slug-continuation token of one line (service.py lines
264-288): rejected when the stripped token is empty, the raw token starts
with an uppercase letter, the stripped token leaves `[a-z0-9-]`, or it is a
stop word; accepted when it contains a name fragment, contains a digit, or
is a lone hyphen. -/
def findCandidate (parts : List (List Char)) : List (List Char) → Option (List Char)
  | [] => none
  | t :: ts =>
    let ct := rstripPunct t
    if ct = [] then findCandidate parts ts
    else if (t.headD ' ').isUpper then findCandidate parts ts
    else if ¬ ct.all slugChar then findCandidate parts ts
    else if lowerL ct ∈ stopwords then findCandidate parts ts
    else if isNameSlug parts ct || ct.any Char.isDigit || ct = ['-'] then some ct
    else findCandidate parts ts

/-- The slug-building loop (service.py lines 258-295): keep appending each
following line's candidate token until a line yields none. -/
def slugExtend (parts : List (List Char)) : List Char → List (List Char) → List Char
  | acc, [] => acc
  | acc, l :: rest =>
    match findCandidate parts (pySplit l) with
    | some cand => slugExtend parts (acc ++ cand) rest
    | none => acc

/-- Python `full_url.strip('-,.;:')` (service.py line 298). -/
def stripURLPunct (t : List Char) : List Char :=
  ((t.dropWhile (fun c => c ∈ ['-', ',', '.', ';', ':'])).reverse.dropWhile
    (fun c => c ∈ ['-', ',', '.', ';', ':'])).reverse

/-- The window scan of `_extract_linkedin_for_contact` (service.py lines
222-301): at each line, look for a wrapped-URL start token; stitch it with
the next line's continuation token and the following lines' slug candidates;
keep the result when it contains `linkedin.com/in/`.  Candidates are
collected in scan order. -/
def scanWindow (parts : List (List Char)) : List (List Char) → List (List Char)
  | [] => []
  | line :: rest =>
    let tail := scanWindow parts rest
    match (pySplit line).find? urlStartTok with
    | none => tail
    | some t0 =>
      match rest with
      | [] => tail
      | l2 :: rest2 =>
        match (pySplit l2).find? urlContTok with
        | none => tail
        | some t1 =>
          let full := stripURLPunct (slugExtend parts (t0 ++ t1) rest2)
          if isSubL "linkedin.com/in/".data full then full :: tail else tail

/-- The URL-reconstruction part of `_extract_linkedin_for_contact`
(service.py lines 213-309) run at a given anchor: the spec's
`reconstructProfileURL`; the first validated candidate wins. -/
def reconstructProfileURLL (text name : List Char) (anchor : Nat) : List Char :=
  let lines := splitlinesPy text
  let parts := pySplit (lowerL name)
  match scanWindow parts (windowLines lines anchor) with
  | [] => []
  | u :: _ => u

/-- `reconstructProfileURL` on `String`s. -/
def reconstructProfileURL (text name : String) (anchor : Nat) : String :=
  ⟨reconstructProfileURLL text.data name.data anchor⟩

/-- `_extract_linkedin_for_contact` (service.py lines 165-309). -/
def extractLinkedin (text name : String) : String :=
  if text = "" ∨ name = "" then ""
  else
    match locateContactL text.data name.data with
    | none => ""
    | some a => ⟨reconstructProfileURLL text.data name.data a⟩

/-! ### Helper lemmas -/

theorem isSubL_eq_true_iff (pat s : List Char) : isSubL pat s = true ↔ pat <:+: s := by
  simp [isSubL]

theorem subnFuel_count_zero (mt : List Char → Option Nat)
    (rf : List Char → List Char) :
    ∀ f s, (subnFuel mt rf f s).2 = 0 → (subnFuel mt rf f s).1 = s := by
  intro f
  induction f with
  | zero => intro s _; rfl
  | succ f ih =>
    intro s h
    cases s with
    | nil => rfl
    | cons c rest =>
      simp only [subnFuel] at h ⊢
      cases hm : mt (c :: rest) with
      | some n => simp only [hm] at h; simp at h
      | none =>
        simp only [hm] at h ⊢
        rw [ih rest h]

theorem subnFuel_count_pos (mt : List Char → Option Nat)
    (rf : List Char → List Char) (n : List Char) (hrf : ∀ m, n <:+: rf m) :
    ∀ f s, 0 < (subnFuel mt rf f s).2 → n <:+: (subnFuel mt rf f s).1 := by
  intro f
  induction f with
  | zero => intro s h; simp [subnFuel] at h
  | succ f ih =>
    intro s h
    cases s with
    | nil => simp [subnFuel] at h
    | cons c rest =>
      simp only [subnFuel] at h ⊢
      cases hm : mt (c :: rest) with
      | some k =>
        simp only [hm] at h ⊢
        obtain ⟨u, v, huv⟩ := hrf ((c :: rest).take k)
        refine ⟨u, v ++ (subnFuel mt rf f (rest.drop (k - 1))).1, ?_⟩
        rw [← huv]
        simp [List.append_assoc]
      | none =>
        simp only [hm] at h ⊢
        obtain ⟨u, v, huv⟩ := ih rest h
        refine ⟨c :: u, v, ?_⟩
        rw [← huv]
        simp

theorem repairCoreE_no_bs (parts : List (List Char)) (name text1 : List Char)
    (h : ¬ '\\' ∈ name) :
    ∃ r, repairCoreE parts name text1 = some r ∧ (r = text1 ∨ name <:+: r) := by
  have hst : subnTemplate (matchPartsAt parts) name text1 =
      some (subnF (matchPartsAt parts) (fun _ => name) text1) := by
    unfold subnTemplate
    rw [if_neg h]
  simp only [repairCoreE, hst]
  by_cases h1 : 0 < (subnF (matchPartsAt parts) (fun _ => name) text1).2
  · rw [if_pos h1]
    refine ⟨_, rfl, Or.inr ?_⟩
    exact subnFuel_count_pos _ _ name (fun m => ⟨[], [], by simp⟩) _ _ h1
  · rw [if_neg h1]
    by_cases h2 : 0 < (subnF (matchProxAt (parts.headD []) (parts.getLastD []))
        (fun m => name ++ ' ' :: m) text1).2
    · refine ⟨_, rfl, Or.inr ?_⟩
      exact subnFuel_count_pos _ _ name (fun m => ⟨[], ' ' :: m, by simp⟩) _ _ h2
    · refine ⟨_, rfl, Or.inl ?_⟩
      exact subnFuel_count_zero _ _ _ _ (Nat.eq_zero_of_not_pos h2)

theorem repairLE_no_bs (t n : List Char) (h : ¬ '\\' ∈ n) :
    ∃ r, repairLE t n = some r ∧ (r = t ∨ (n ≠ [] ∧ isSubL n r = true)) := by
  unfold repairLE
  by_cases h0 : t = [] ∨ n = []
  · rw [if_pos h0]; exact ⟨t, rfl, Or.inl rfl⟩
  · rw [if_neg h0]
    by_cases h1 : isSubL n t = true
    · rw [if_pos h1]; exact ⟨t, rfl, Or.inl rfl⟩
    · rw [if_neg h1]
      by_cases h2 : (pySplit n).length < 2
      · rw [if_pos h2]; exact ⟨t, rfl, Or.inl rfl⟩
      · rw [if_neg h2]
        have hn : n ≠ [] := fun hx => h0 (Or.inr hx)
        by_cases h3 : isSubL n (brClean t) = true
        · rw [if_pos h3]
          obtain ⟨r, hr, hcase⟩ := repairCoreE_no_bs (pySplit n) n (brClean t) h
          refine ⟨r, hr, Or.inr ⟨hn, ?_⟩⟩
          rcases hcase with rfl | hin
          · exact h3
          · exact (isSubL_eq_true_iff _ _).mpr hin
        · rw [if_neg h3]
          obtain ⟨r, hr, hcase⟩ := repairCoreE_no_bs (pySplit n) n t h
          rcases hcase with rfl | hin
          · exact ⟨r, hr, Or.inl rfl⟩
          · exact ⟨r, hr, Or.inr ⟨hn, (isSubL_eq_true_iff _ _).mpr hin⟩⟩

theorem repairLE_of_sub (t n : List Char) (hn : n ≠ [])
    (hsub : isSubL n t = true) : repairLE t n = some t := by
  have ht : t ≠ [] := by
    intro he
    obtain ⟨u, v, huv⟩ := (isSubL_eq_true_iff _ _).mp hsub
    rw [he] at huv
    rw [List.append_eq_nil, List.append_eq_nil] at huv
    exact hn huv.1.2
  unfold repairLE
  rw [if_neg (by rintro (hx | hx); exacts [ht hx, hn hx]), if_pos hsub]

/-! ### Claims about name repair -/

/-- C5 counterexample: `_repair_contact_name_in_text("hello", "a\\1 b")`
raises `re.error` ("invalid group reference"): the name reaches Strategy 1
as the replacement template of `re.subn` (service.py line 56), whose
compilation rejects the group reference `\\1` because the pattern has no
groups — even though nothing matches.  The embedding returns `none`, which
models the raised exception, refuting "never raises for every text and
contact name". -/
theorem c5_template_error_counterexample :
    repairContactNameE "hello" "a\\1 b" = none := by
  decide

/-- C5 (amended): name repair never raises for any contact name containing
no backslash character — for such names the replacement string is used
verbatim and every other step is total; and for every text and name, when
the text or the name is empty or missing the input text is returned
unchanged (no exception is possible on that path).  Names containing
backslash escape sequences can instead raise `re.error` from
replacement-template compilation (modelled as `none`). -/
theorem c5_repair_no_raise_amended (text name : String) :
    (¬ '\\' ∈ name.data → (repairContactNameE text name).isSome = true) ∧
    ((text = "" ∨ name = "") → repairContactNameE text name = some text) := by
  constructor
  · intro h
    obtain ⟨r, hr, _⟩ := repairLE_no_bs text.data name.data h
    unfold repairContactNameE
    rw [hr]
    rfl
  · intro h
    have hd : text.data = [] ∨ name.data = [] := by
      rcases h with h | h
      · exact Or.inl (by rw [h])
      · exact Or.inr (by rw [h])
    unfold repairContactNameE repairLE
    rw [if_pos hd]
    rfl

/-- Witness for C5 (amended): the backslash-free name `"Michael Stevens"`
never raises, and the empty text passes through unchanged. -/
theorem c5_repair_no_raise_amended_witness :
    (repairContactNameE "some text" "Michael Stevens").isSome = true ∧
      repairContactNameE "" "Michael Stevens" = some "" :=
  ⟨(c5_repair_no_raise_amended "some text" "Michael Stevens").1 (by decide),
   (c5_repair_no_raise_amended "" "Michael Stevens").2 (Or.inl rfl)⟩

/-- C9 counterexample: name repair is not idempotent.  For the name
`"a\\t b"` (with a literal backslash) and the text
`"a\\t  b and also a\\t zz b"`, Strategy 1 replaces the first fragment with
the template-processed name — `\\t` becomes a TAB — so the literal name is
absent from the result, and a second application's proximity injection
changes the text again (verified against CPython).  Both applications
return normally (`some`), and the two results differ. -/
theorem c9_not_idempotent_counterexample :
    repairContactNameE "a\\t  b and also a\\t zz b" "a\\t b" =
        some "a\t b and also a\\t zz b" ∧
      repairContactNameE "a\t b and also a\\t zz b" "a\\t b" =
        some "a\t b and also a\\t b a\\t zz b" ∧
      ("a\t b and also a\\t zz b" : String) ≠
        "a\t b and also a\\t b a\\t zz b" := by
  refine ⟨by decide, by decide, by decide⟩

/-- C9 (amended): name repair is idempotent for every contact name
containing no backslash character (then the replacement template coincides
with the literal name): every path that changes the text leaves the literal
name present, triggering the exact-match fast path on the second
application, and every unchanged path is deterministic.  For names with
backslashes the inserted text is the escape-processed template and
idempotence fails. -/
theorem c9_repair_idempotent_amended (text name : String)
    (h : ¬ '\\' ∈ name.data) :
    repairContactName (repairContactName text name) name =
      repairContactName text name := by
  obtain ⟨r, hr, hcase⟩ := repairLE_no_bs text.data name.data h
  have h1 : repairContactName text name = ⟨r⟩ := by
    unfold repairContactName
    rw [hr]
    rfl
  rcases hcase with rfl | ⟨hn, hsub⟩
  · rw [h1]
    exact h1
  · rw [h1]
    show (⟨(repairLE (String.data ⟨r⟩) name.data).getD (String.data ⟨r⟩)⟩ : String) = _
    rw [repairLE_of_sub r name.data hn hsub]
    rfl

/-- Witness for C9 (amended) at the backslash-free input
`("John\nSmith co", "John Smith")`. -/
theorem c9_repair_idempotent_amended_witness :
    repairContactName (repairContactName "John\nSmith co" "John Smith")
        "John Smith" =
      repairContactName "John\nSmith co" "John Smith" :=
  c9_repair_idempotent_amended "John\nSmith co" "John Smith" (by decide)

/-- C1: for the input text
`"Contact Info\nMichael\nStevens, VP Sales\nhttp://www.lin\nkedin.com/in/mstevens"`
and contact name `"Michael Stevens"`, name repair produces a text containing
the literal `"Michael Stevens"`; the contact locator then anchors at line 1,
the line containing `"Michael"`; and the URL reconstructor on the window
around that anchor returns exactly `"http://www.linkedin.com/in/mstevens"`. -/
theorem c1_end_to_end_scenario :
    isSubL "Michael Stevens".data
      (repairContactName
        "Contact Info\nMichael\nStevens, VP Sales\nhttp://www.lin\nkedin.com/in/mstevens"
        "Michael Stevens").data = true ∧
    locateContact
      (repairContactName
        "Contact Info\nMichael\nStevens, VP Sales\nhttp://www.lin\nkedin.com/in/mstevens"
        "Michael Stevens")
      "Michael Stevens" = some 1 ∧
    isSubL "Michael".data
      ((splitlinesPy (repairContactName
        "Contact Info\nMichael\nStevens, VP Sales\nhttp://www.lin\nkedin.com/in/mstevens"
        "Michael Stevens").data).getD 1 []) = true ∧
    reconstructProfileURL
      (repairContactName
        "Contact Info\nMichael\nStevens, VP Sales\nhttp://www.lin\nkedin.com/in/mstevens"
        "Michael Stevens")
      "Michael Stevens" 1 = "http://www.linkedin.com/in/mstevens" := by
  set_option maxRecDepth 100000 in decide

/-! ### Argmax lemmas for the industry classifier -/

theorem pickBest_mem :
    ∀ (l : List (String × Nat)) (b : String × Nat), pickBest b l ∈ b :: l := by
  intro l
  induction l with
  | nil => intro b; simp [pickBest]
  | cons p rest ih =>
    intro b
    simp only [pickBest]
    rcases List.mem_cons.mp (ih (if b.2 < p.2 then p else b)) with h | h
    · rw [h]
      split
      · exact List.mem_cons_of_mem _ (List.mem_cons_self _ _)
      · exact List.mem_cons_self _ _
    · exact List.mem_cons_of_mem _ (List.mem_cons_of_mem _ h)

theorem pickBest_self :
    ∀ (l : List (String × Nat)) (b : String × Nat),
      (∀ q ∈ l, q.2 ≤ b.2) → pickBest b l = b := by
  intro l
  induction l with
  | nil => intro b _; rfl
  | cons p rest ih =>
    intro b hle
    simp only [pickBest]
    rw [if_neg (by have := hle p (List.mem_cons_self _ _); omega)]
    exact ih b (fun q hq => hle q (List.mem_cons_of_mem _ hq))

theorem pickBest_first :
    ∀ (l : List (String × Nat)) (b : String × Nat) (i : Nat)
      (hi : i < (b :: l).length),
      (∀ q ∈ b :: l, q.2 ≤ ((b :: l).get ⟨i, hi⟩).2) →
      (∀ j (hj : j < i),
        ((b :: l).get ⟨j, Nat.lt_trans hj hi⟩).2 < ((b :: l).get ⟨i, hi⟩).2) →
      pickBest b l = (b :: l).get ⟨i, hi⟩ := by
  intro l
  induction l with
  | nil =>
    intro b i hi hmax hfirst
    match i, hi with
    | 0, _ => rfl
  | cons p rest ih =>
    intro b i hi hmax hfirst
    match i, hi with
    | 0, _ =>
      simp only [List.get] at hmax ⊢
      simp only [pickBest]
      rw [if_neg (by have := hmax p (List.mem_cons_of_mem _ (List.mem_cons_self _ _)); omega)]
      exact pickBest_self rest b
        (fun q hq => hmax q (List.mem_cons_of_mem _ (List.mem_cons_of_mem _ hq)))
    | 1, _ =>
      have hbp : b.2 < p.2 := hfirst 0 (by omega)
      simp only [List.get] at hmax ⊢
      simp only [pickBest]
      rw [if_pos hbp]
      exact pickBest_self rest p
        (fun q hq => hmax q (List.mem_cons_of_mem _ (List.mem_cons_of_mem _ hq)))
    | k + 2, hi =>
      have hk : k + 1 < ((if b.2 < p.2 then p else b) :: rest).length := by
        simpa using Nat.lt_of_succ_lt_succ hi
      have hb : b.2 < ((b :: p :: rest).get ⟨k + 2, hi⟩).2 := hfirst 0 (by omega)
      have hp : p.2 < ((b :: p :: rest).get ⟨k + 2, hi⟩).2 := hfirst 1 (by omega)
      simp only [pickBest]
      have hres := ih (if b.2 < p.2 then p else b) (k + 1) hk
        (by
          intro q hq
          rcases List.mem_cons.mp hq with h | h
          · rw [h]
            split
            · exact Nat.le_of_lt hp
            · exact Nat.le_of_lt hb
          · exact hmax q (List.mem_cons_of_mem _ (List.mem_cons_of_mem _ h)))
        (by
          intro j hj
          match j, hj with
          | 0, _ =>
            show (if b.2 < p.2 then p else b).2 < _
            split
            · exact hp
            · exact hb
          | m + 1, hj => exact hfirst (m + 2) (by omega))
      exact hres

theorem chooseBest_spec (sc : List (String × Nat)) :
    ((∀ q ∈ sc, q.2 = 0) → chooseBest sc = none) ∧
    (∀ i (hi : i < sc.length),
      0 < (sc.get ⟨i, hi⟩).2 →
      (∀ q ∈ sc, q.2 ≤ (sc.get ⟨i, hi⟩).2) →
      (∀ j (hj : j < i), (sc.get ⟨j, Nat.lt_trans hj hi⟩).2 < (sc.get ⟨i, hi⟩).2) →
      chooseBest sc = some ((sc.get ⟨i, hi⟩).1)) := by
  cases sc with
  | nil =>
    refine ⟨fun _ => rfl, ?_⟩
    intro i hi
    simp at hi
  | cons b rest =>
    constructor
    · intro hz
      have hmem := pickBest_mem rest b
      simp only [chooseBest]
      rw [if_pos (hz _ hmem)]
    · intro i hi h0 hmax hfirst
      simp only [chooseBest]
      rw [pickBest_first rest b i hi hmax hfirst]
      rw [if_neg (by omega)]

/-- C2: the industry classifier returns the industry whose keywords have the
strictly highest total non-overlapping occurrence count in the lowercased
research text; among equal maximal nonzero scores the industry that comes
first in taxonomy iteration order wins (any entry that is maximal and
strictly above every earlier entry is returned); and when every industry
scores zero it returns `none` ("no match", no industry filter). -/
theorem c2_industry_classifier (research : String) :
    ((∀ q ∈ scoredIndustries research, q.2 = 0) →
      classifyIndustry research = none) ∧
    (∀ i (hi : i < (scoredIndustries research).length),
      0 < ((scoredIndustries research).get ⟨i, hi⟩).2 →
      (∀ q ∈ scoredIndustries research,
        q.2 ≤ ((scoredIndustries research).get ⟨i, hi⟩).2) →
      (∀ j (hj : j < i),
        ((scoredIndustries research).get ⟨j, Nat.lt_trans hj hi⟩).2 <
          ((scoredIndustries research).get ⟨i, hi⟩).2) →
      classifyIndustry research =
        some (((scoredIndustries research).get ⟨i, hi⟩).1)) := by
  simpa only [classifyIndustry] using chooseBest_spec (scoredIndustries research)

/-- Witness for C2 at the concrete research text `"bank"`: the Financial
Services row (index 1) scores 1, every other row scores 0, so the classifier
returns `"Financial Services"`. -/
theorem c2_industry_classifier_witness :
    classifyIndustry "bank" = some "Financial Services" := by
  have h := (c2_industry_classifier "bank").2 1 (by decide) (by decide)
    (by decide) (by decide)
  rw [h]
  decide

/-! ### Case-study filter lemmas and claims -/

theorem processRows_none_charac (rows : List CaseStudyRow) :
    ∀ c, c < 30 → processRows none rows c =
      ((rows.take (30 - c)).map formatRow).flatten ++
        (if 30 - c ≤ rows.length then [truncMarker] else []) := by
  induction rows with
  | nil =>
    intro c hc
    have : ¬ 30 - c ≤ ([] : List CaseStudyRow).length := by simp; omega
    rw [if_neg this]
    simp [processRows]
  | cons r rest ih =>
    intro c hc
    simp only [processRows]
    rw [if_neg (by simp [rowSkipped])]
    by_cases h29 : c + 1 ≥ 30
    · rw [if_pos h29]
      have hc29 : c = 29 := by omega
      subst hc29
      norm_num
    · rw [if_neg h29]
      rw [ih (c + 1) (by omega)]
      have ht : 30 - c = (29 - c) + 1 := by omega
      have ht2 : 30 - (c + 1) = 29 - c := by omega
      rw [ht, ht2, List.take_succ_cons]
      simp only [List.map_cons, List.flatten, List.length_cons]
      by_cases hlen : 29 - c ≤ rest.length
      · rw [if_pos hlen, if_pos (by simp; omega)]
        simp [List.append_assoc]
      · rw [if_neg hlen, if_neg (by simp; omega)]
        simp [List.append_assoc]

/-- C3 counterexample: with a dataset of exactly 30 rows and no inferred
industry, the truncation marker is appended to the output even though the
dataset does not contain more rows than the 30-entry cap — refuting the
"only when" direction of the claim. -/
theorem c3_marker_at_exactly_thirty :
    truncMarker ∈
        processRows none
          (List.replicate 30
            (⟨none, none, none, none, none, none, none, none⟩ : CaseStudyRow)) 0 ∧
      ¬ 30 <
        (List.replicate 30
          (⟨none, none, none, none, none, none, none, none⟩ : CaseStudyRow)).length := by
  constructor
  · set_option maxRecDepth 40000 in decide
  · decide

/-- C3 (amended): with no inferred industry the filter formats exactly the
first `min 30 n` rows of an `n`-row dataset, in order, and appends the
"list truncated" marker when, and only when, the dataset contains at least
30 rows (so also at exactly 30, where nothing was actually cut off). -/
theorem c3_cap_and_marker_amended (rows : List CaseStudyRow) :
    processRows none rows 0 =
      ((rows.take 30).map formatRow).flatten ++
        (if 30 ≤ rows.length then [truncMarker] else []) := by
  simpa using processRows_none_charac rows 0 (by omega)

theorem processRows_all_skipped (t : String) :
    ∀ (rows : List CaseStudyRow) (c : Nat),
      (∀ r ∈ rows, pyStrip (r.industry.getD "") ≠ t) →
      processRows (some t) rows c = [] := by
  intro rows
  induction rows with
  | nil => intro c _; rfl
  | cons r rest ih =>
    intro c h
    simp only [processRows]
    rw [if_pos (by simpa [rowSkipped] using h r (List.mem_cons_self _ _))]
    exact ih c (fun q hq => h q (List.mem_cons_of_mem _ hq))

/-- C4 counterexample: with inferred industry `"Retail/eCommerce"` and a
single row whose `industry` field is `" Retail/eCommerce"`, no row's field
exactly equals the label, yet the filter formats that row (the comparison at
service.py line 127 strips the field first) — so the filter neither produces
zero entries nor the "none found" notice. -/
theorem c4_exact_equality_counterexample :
    ((⟨some " Retail/eCommerce", none, none, none, none, none, none,
        none⟩ : CaseStudyRow).industry.getD "" ≠ "Retail/eCommerce") ∧
      processRows (some "Retail/eCommerce")
        [⟨some " Retail/eCommerce", none, none, none, none, none, none, none⟩]
        0 ≠ [] ∧
      filterCaseStudies
        [⟨some " Retail/eCommerce", none, none, none, none, none, none, none⟩]
        (some "Retail/eCommerce") ≠ [noticeFor "Retail/eCommerce"] := by
  refine ⟨by decide, by decide, by decide⟩

/-- C4 (amended): if an industry label is inferred and no row's `industry`
field, after stripping leading and trailing whitespace, equals the label
(case-sensitive exact comparison of the stripped field), the filter produces
zero formatted entries plus the explicit "none found for this industry"
notice, and does not fall back to including all rows. -/
theorem c4_no_match_notice_amended (rows : List CaseStudyRow) (t : String)
    (h : ∀ r ∈ rows, pyStrip (r.industry.getD "") ≠ t) :
    processRows (some t) rows 0 = [] ∧
      filterCaseStudies rows (some t) = [noticeFor t] := by
  have hp := processRows_all_skipped t rows 0 h
  refine ⟨hp, ?_⟩
  simp [filterCaseStudies, hp]

/-- Witness for C4 (amended) at a concrete one-row dataset whose stripped
industry differs from the inferred label. -/
theorem c4_no_match_notice_amended_witness :
    processRows (some "SaaS/Technology")
        [⟨some "Retail", none, none, none, none, none, none, none⟩] 0 = [] ∧
      filterCaseStudies
        [⟨some "Retail", none, none, none, none, none, none, none⟩]
        (some "SaaS/Technology") =
        [noticeFor "SaaS/Technology"] :=
  c4_no_match_notice_amended _ _ (by decide)

/-- C7: when the case-study dataset text is empty or consists only of
whitespace, `_get_relevant_solved_challenges` returns the empty report (the
embedding is a total function, so no exception is possible). -/
theorem c7_empty_dataset_empty_result (csvText research : String)
    (h : pyStrip csvText = "") :
    getRelevantSolvedChallenges csvText research = "" := by
  unfold getRelevantSolvedChallenges
  rw [if_pos (Or.inr h)]

/-- Witness for C7 at the concrete whitespace-only dataset `"  \n "`. -/
theorem c7_empty_dataset_empty_result_witness :
    getRelevantSolvedChallenges "  \n " "some research text" = "" :=
  c7_empty_dataset_empty_result "  \n " "some research text" (by decide)

/-! ### Contact-locator lemmas and claims -/

theorem singlePassAux_bound (parts : List (List Char)) (K : Nat) :
    ∀ (ls : List (List Char)) (i : Nat) (a : Option Nat) (b : Nat),
      (∀ l ∈ ls, countParts parts (lowerL l) < K) → b < K →
      (singlePassAux parts ls i a b).2 < K := by
  intro ls
  induction ls with
  | nil => intro i a b _ hb; exact hb
  | cons l rest ih =>
    intro i a b h hb
    simp only [singlePassAux]
    split
    · exact ih (i + 1) _ _ (fun q hq => h q (List.mem_cons_of_mem _ hq))
        (h l (List.mem_cons_self _ _))
    · exact ih (i + 1) _ _ (fun q hq => h q (List.mem_cons_of_mem _ hq)) hb

theorem windowPass_first (parts : List (List Char)) :
    ∀ (ls : List (List Char)) (i : Nat),
      i + 1 < ls.length →
      coverPair parts (ls.getD i []) (ls.getD (i + 1) []) = true →
      (∀ j, j < i → coverPair parts (ls.getD j []) (ls.getD (j + 1) []) = false) →
      windowPass parts ls = some i := by
  intro ls
  induction ls with
  | nil => intro i hi; simp at hi
  | cons l1 tail ih =>
    intro i hi hcov hfirst
    cases tail with
    | nil => simp at hi
    | cons l2 rest =>
      cases i with
      | zero =>
        simp only [windowPass]
        rw [if_pos (by simpa using hcov)]
      | succ k =>
        have h0 : coverPair parts l1 l2 = false := by
          simpa using hfirst 0 (Nat.succ_pos k)
        simp only [windowPass]
        rw [if_neg (by simp [h0])]
        have hrec := ih k (by simpa using Nat.lt_of_succ_lt_succ hi)
          (by simpa using hcov)
          (fun j hj => by simpa using hfirst (j + 1) (by omega))
        rw [hrec]
        rfl

/-- C8: whenever no single line of the text contains every token of the
contact name, but the pair of adjacent lines `i`, `i+1` is the first pair to
jointly contain every token, the contact locator anchors at line `i` — the
2-line-window pass overrides the single-line result. -/
theorem c8_two_line_split_anchor (text name : String) (i : Nat)
    (hno : ∀ l ∈ splitlinesPy text.data,
      countParts (pySplit (lowerL name.data)) (lowerL l) <
        (pySplit (lowerL name.data)).length)
    (hi : i + 1 < (splitlinesPy text.data).length)
    (hcov : coverPair (pySplit (lowerL name.data))
      ((splitlinesPy text.data).getD i [])
      ((splitlinesPy text.data).getD (i + 1) []) = true)
    (hfirst : ∀ j, j < i →
      coverPair (pySplit (lowerL name.data))
        ((splitlinesPy text.data).getD j [])
        ((splitlinesPy text.data).getD (j + 1) []) = false) :
    locateContact text name = some i := by
  unfold locateContact locateContactL
  have hpos : 0 < (pySplit (lowerL name.data)).length := by
    have hmem : (splitlinesPy text.data).get ⟨0, by omega⟩ ∈ splitlinesPy text.data :=
      List.get_mem _ _ _
    have := hno _ hmem
    omega
  have hb := singlePassAux_bound (pySplit (lowerL name.data))
    (pySplit (lowerL name.data)).length (splitlinesPy text.data) 0 none 0 hno hpos
  rw [if_pos (Or.inr hb)]
  rw [windowPass_first (pySplit (lowerL name.data)) (splitlinesPy text.data) i
    hi hcov hfirst]

/-- Witness for C8 on the text `"Eddie\nGuerrero"` with name
`"Eddie Guerrero"`: neither line alone contains both tokens, the pair at
index 0 does, and the locator anchors at line 0. -/
theorem c8_two_line_split_anchor_witness :
    locateContact "Eddie\nGuerrero" "Eddie Guerrero" = some 0 :=
  c8_two_line_split_anchor "Eddie\nGuerrero" "Eddie Guerrero" 0
    (by decide) (by decide) (by decide) (fun j hj => absurd hj (Nat.not_lt_zero j))

theorem pySplitAux_all_space :
    ∀ s, (∀ c ∈ s, pySpace c = true) → pySplitAux s [] = [] := by
  intro s
  induction s with
  | nil => intro _; rfl
  | cons c t ih =>
    intro h
    simp only [pySplitAux]
    rw [if_pos (h c (List.mem_cons_self _ _))]
    simp only [if_true]
    exact ih (fun q hq => h q (List.mem_cons_of_mem _ hq))

theorem pySpace_toLower (c : Char) (h : pySpace c = true) :
    Char.toLower c = c := by
  simp only [pySpace, Bool.or_eq_true, decide_eq_true_eq] at h
  rcases h with ((((h | h) | h) | h) | h) | h <;> subst h <;> decide

theorem pySplit_lower_all_space (s : List Char)
    (h : ∀ c ∈ s, pySpace c = true) : pySplit (lowerL s) = [] := by
  apply pySplitAux_all_space
  intro c hc
  obtain ⟨d, hd, rfl⟩ := List.mem_map.mp hc
  rw [pySpace_toLower d (h d hd)]
  exact h d hd

theorem singlePassAux_nil_parts :
    ∀ (ls : List (List Char)) (i : Nat),
      singlePassAux [] ls i none 0 = (none, 0) := by
  intro ls
  induction ls with
  | nil => intro i; rfl
  | cons l rest ih =>
    intro i
    simp only [singlePassAux, countParts]
    rw [if_neg (by simp)]
    exact ih (i + 1)

theorem take_min_length (l : List α) (k : Nat) :
    l.take (min l.length k) = l.take k := by
  rcases Nat.le_total l.length k with h | h
  · rw [Nat.min_eq_left h, List.take_length, List.take_of_length_le h]
  · rw [Nat.min_eq_right h]

/-- C10: for a text of at least two lines and a contact name that is
non-empty but consists only of whitespace (so it splits into zero lowercase
tokens), the contact locator does not report "not found": the 2-line-window
pass vacuously achieves full coverage of the empty token set at the first
line pair, anchoring at line 0, and the URL scan window is then lines 0
through 7 of the text. -/
theorem c10_whitespace_name_anchor_zero (text name : String)
    (_hne : name ≠ "") (hsp : ∀ c ∈ name.data, pySpace c = true)
    (hlen : 2 ≤ (splitlinesPy text.data).length) :
    locateContact text name = some 0 ∧
      windowLines (splitlinesPy text.data) 0 = (splitlinesPy text.data).take 8 := by
  have hparts : pySplit (lowerL name.data) = [] :=
    pySplit_lower_all_space name.data hsp
  constructor
  · unfold locateContact locateContactL
    rw [hparts, singlePassAux_nil_parts]
    rw [if_pos (Or.inl rfl)]
    cases hls : splitlinesPy text.data with
    | nil => rw [hls] at hlen; simp at hlen
    | cons l1 tail =>
      cases tail with
      | nil => rw [hls] at hlen; simp at hlen
      | cons l2 rest =>
        simp only [windowPass]
        rw [if_pos (by simp [coverPair, countParts])]
  · unfold windowLines
    simp only [Nat.zero_sub, Nat.zero_add, List.drop_zero, Nat.sub_zero]
    exact take_min_length _ 8

/-- Witness for C10 on the text `"a\nb"` and the whitespace-only name `" "`. -/
theorem c10_whitespace_name_anchor_zero_witness :
    locateContact "a\nb" " " = some 0 ∧
      windowLines (splitlinesPy "a\nb".data) 0 =
        (splitlinesPy "a\nb".data).take 8 :=
  c10_whitespace_name_anchor_zero "a\nb" " " (by decide) (by decide) (by decide)

/-! ### URL-reconstruction window claims -/

/-- C6 counterexample: for the ten-line text whose anchor (for name
`"Bob Jones"`) is line 0, with a wrapped URL starting at line 8 — the 8th
line after the anchor, which the claim places inside the scanned window —
the code's window is `lines[0:8]`, which excludes that line (and is not the
claimed `take 9`), so the URL is not found and the extractor returns `""`. -/
theorem c6_window_counterexample :
    windowLines
        (splitlinesPy
          "Bob Jones\nx\nx\nx\nx\nx\nx\nx\nhttp://www.lin\nkedin.com/in/bobjones".data)
        0 =
      (splitlinesPy
        "Bob Jones\nx\nx\nx\nx\nx\nx\nx\nhttp://www.lin\nkedin.com/in/bobjones".data).take
        8 ∧
    windowLines
        (splitlinesPy
          "Bob Jones\nx\nx\nx\nx\nx\nx\nx\nhttp://www.lin\nkedin.com/in/bobjones".data)
        0 ≠
      (splitlinesPy
        "Bob Jones\nx\nx\nx\nx\nx\nx\nx\nhttp://www.lin\nkedin.com/in/bobjones".data).take
        9 ∧
    extractLinkedin "Bob Jones\nx\nx\nx\nx\nx\nx\nx\nhttp://www.lin\nkedin.com/in/bobjones"
        "Bob Jones" = "" := by
  refine ⟨by decide, by decide, ?_⟩
  set_option maxRecDepth 100000 in decide

/-- C6 (amended): the URL reconstructor scans exactly the window
`lines[max(0, a-2) : min(len, a+8)]` around anchor `a` — the 2 lines before
the anchor, the anchor line itself, and the 7 (not 8) lines after it,
clamped to the text's bounds: position `j` of the window is line `a - 2 + j`
of the text, and the window holds nothing else.  A line-wrapped URL whose
start token lies outside this slice is never seen by the scan. -/
theorem c6_window_charac_amended (lines : List (List Char)) (a j : Nat) :
    (windowLines lines a)[j]? =
      if j < min lines.length (a + 8) - (a - 2) then lines[a - 2 + j]?
      else none := by
  unfold windowLines
  rw [List.getElem?_take]
  by_cases h : j < min lines.length (a + 8) - (a - 2)
  · rw [if_pos h, if_pos h, List.getElem?_drop]
  · rw [if_neg h, if_neg h]

end MeetingPrep
